import Mathlib

/-!
Formal model of the storybook generation application core: the PDF layout
engine (createPDF, wrapText, PAGE_SIZES of the export edge function), the
word count validation used by the page editor (countWords, getPageStatus,
canExport), and the billing gate of the export request handler.

Modelling conventions.
JavaScript strings are Lean String values; machine floating point lengths
are modelled exactly: physical page sizes are kept in integer millimetres,
and PDF point coordinates are kept as integers in units of 1e-10 point, so
that 1 mm = 2.834645669 pt = 28346456690 units and multiplication by 0.8
is exact. Font metrics are a parameter: pdf-lib computes
font.widthOfTextAtSize(line, size) as the sum of per character advance
widths scaled by the size, which we model as an arbitrary integer valued
character width function times the font size. Fallible operations return
Option, and the request handler returns an explicit result datatype whose
cases carry the HTTP status of the source code paths.
-/

/-- Character class of the JavaScript regular expression backslash-s used by
countWords, restricted to its ASCII members (space, tab, line feed,
vertical tab, form feed, carriage return). -/
def isJsSpace (c : Char) : Bool :=
  c == ' ' || c == '\t' || c == '\n' || c == '\r' || c == Char.ofNat 11 || c == Char.ofNat 12

/-- Embedding of countWords from supabase/functions/story-write/index.ts:
t.split(on runs of whitespace).filter(Boolean).length. Splitting at every
single whitespace character and discarding empty chunks yields exactly the
same token list as splitting on runs of whitespace and discarding empty
strings, which is what the JavaScript filter(Boolean) does. -/
def countWords (t : String) : Nat :=
  ((t.data.splitOnP isJsSpace).filter (fun w => !w.isEmpty)).length

/-- Helper for the specification level word counter: counts maximal runs of
non whitespace characters, carrying a flag that records whether the
previous character was inside a word. -/
def wordRunsAux : Bool → List Char → Nat
  | _, [] => 0
  | inWord, c :: cs =>
    if isJsSpace c then wordRunsAux false cs
    else (if inWord then 0 else 1) + wordRunsAux true cs

/-- Word counter written from the specification text: trim the input, return
zero for empty or whitespace only input, otherwise the number of tokens
obtained by splitting on runs of whitespace. Counting maximal non
whitespace runs realises exactly that description. -/
def countWordsSpec (t : String) : Nat :=
  wordRunsAux false t.data

/-- The three reading levels of the source type ReadingLevel
(Toddler 2-3, Early 4-5, Primary 6-8). -/
inductive ReadingLevel
  | toddler23
  | early45
  | primary68
deriving DecidableEq

/-- A closed word count interval for one reading level. -/
structure WordTargets where
  min : Nat
  max : Nat
deriving DecidableEq

/-- The word count target table, with the literal values of the source type
WordCountTargets: 60-80, 80-120, 120-150. -/
def wordCountTargets : ReadingLevel → WordTargets
  | .toddler23 => ⟨60, 80⟩
  | .early45 => ⟨80, 120⟩
  | .primary68 => ⟨120, 150⟩

/-- Display classification of a word count. -/
inductive WordStatus
  | low
  | good
  | high
deriving DecidableEq

/-- Modelled from the spec: getWordCountStatus of src/lib/validation.ts is
imported by PageEditor.tsx but the file itself is not in the source tree.
The spec defines classify as the display classification with no tolerance:
low when the count is below min, high when above max, good otherwise. -/
def getWordCountStatus (wordCount : Nat) (level : ReadingLevel) : WordStatus :=
  if wordCount < (wordCountTargets level).min then .low
  else if wordCount > (wordCountTargets level).max then .high
  else .good

/-- One logical page, as in the source type StoryPage. -/
structure StoryPage where
  page : Nat
  text : String
  imageUrl : Option String
  imageLocked : Bool
deriving DecidableEq

/-- Embedding of the hasImage computation of getPageStatus in
PageEditor.tsx: double negation of page.imageUrl (an absent or empty
string is falsy) or page.imageLocked. -/
def hasImage (p : StoryPage) : Bool :=
  (match p.imageUrl with
   | some u => !u.isEmpty
   | none => false) || p.imageLocked

/-- Result of getPageStatus; the source returns the strings complete or
warning for each field, modelled as true for complete. -/
structure PageStatus where
  text : Bool
  image : Bool
  overall : Bool
deriving DecidableEq

/-- Embedding of getPageStatus from PageEditor.tsx: the text field is
complete exactly when the display status is good, the image field exactly
when hasImage holds, and overall is their conjunction. -/
def getPageStatus (level : ReadingLevel) (page : StoryPage) : PageStatus :=
  ⟨decide (getWordCountStatus (countWords page.text) level = .good),
   hasImage page,
   decide (getWordCountStatus (countWords page.text) level = .good) && hasImage page⟩

/-- Embedding of the canExport computation of PageEditor.tsx: every page
must have an overall complete status. -/
def canExport (level : ReadingLevel) (pages : List StoryPage) : Bool :=
  pages.all (fun p => (getPageStatus level p).overall)

/-- Bleed margin constant BLEED_MM of the export edge function, in mm. -/
def BLEED_MM : Nat := 3

/-- A physical rectangle in integer millimetres. -/
structure MmRect where
  width : Nat
  height : Nat
deriving DecidableEq

/-- Content and bleed rectangles of one page size preset. -/
structure PageSizeEntry where
  content : MmRect
  withBleed : MmRect
deriving DecidableEq

/-- The A5 portrait entry of PAGE_SIZES. -/
def a5PageSize : PageSizeEntry := ⟨⟨148, 210⟩, ⟨154, 216⟩⟩

/-- The A4 portrait entry of PAGE_SIZES. -/
def a4PageSize : PageSizeEntry := ⟨⟨210, 297⟩, ⟨216, 303⟩⟩

/-- The square entry of PAGE_SIZES. -/
def squarePageSize : PageSizeEntry := ⟨⟨210, 210⟩, ⟨216, 216⟩⟩

/-- Embedding of the PAGE_SIZES table of the export edge function as a
lookup from preset name to entry; names not present in the object yield
none. -/
def PAGE_SIZES (k : String) : Option PageSizeEntry :=
  if k = "A5 portrait" then some a5PageSize
  else if k = "A4 portrait" then some a4PageSize
  else if k = "210×210 mm square" then some squarePageSize
  else none

/-- Millimetres to PDF points, modelling mmToPdfPoints (mm * 2.834645669)
exactly in integer units of 1e-10 point. -/
def mmToPdfPointsU (mm : Nat) : Int :=
  (mm : Int) * 28346456690

/-- Width of a line of text under a per character advance width function
and a font size, modelling font.widthOfTextAtSize(line, fontSize). -/
def lineWidth (font : Char → Int) (fontSize : Int) (l : List Char) : Int :=
  ((l.map font).sum) * fontSize

/-- Core loop of wrapText, over words as character lists: the current line
is extended by the next word (with a separating space when the current
line is nonempty) while the measured candidate width stays at or under
maxWidth; otherwise the nonempty current line is emitted and the word
starts the next line, or, when the current line is empty, the word itself
is emitted as a line of its own. -/
def wrapWords (font : Char → Int) (fontSize maxWidth : Int) :
    List (List Char) → List Char → List (List Char) → List (List Char)
  | [], currentLine, lines =>
    if currentLine = [] then lines else lines ++ [currentLine]
  | word :: rest, currentLine, lines =>
    if lineWidth font fontSize (currentLine ++ (if currentLine = [] then [] else [' ']) ++ word) ≤ maxWidth then
      wrapWords font fontSize maxWidth rest (currentLine ++ (if currentLine = [] then [] else [' ']) ++ word) lines
    else if currentLine = [] then
      wrapWords font fontSize maxWidth rest [] (lines ++ [word])
    else
      wrapWords font fontSize maxWidth rest word (lines ++ [currentLine])

/-- Embedding of wrapText from the export edge function: the text is split
on single space characters, and the resulting words are assembled greedily
by wrapWords. -/
def wrapText (font : Char → Int) (fontSize maxWidth : Int) (text : String) : List String :=
  (wrapWords font fontSize maxWidth (text.data.splitOn ' ') [] []).map String.mk

/-- Wrapping function written from the words of claim C4 for comparison
with the source embedding: the text is split on whitespace into atomic
words containing no whitespace, then assembled greedily exactly as
wrapWords does. -/
def wrapTextWhitespaceClaim (font : Char → Int) (fontSize maxWidth : Int) (text : String) : List String :=
  (wrapWords font fontSize maxWidth ((text.data.splitOnP isJsSpace).filter (fun w => !w.isEmpty)) [] []).map String.mk

/-- The configuration fields of the source type StoryConfig that createPDF
reads: the child names, the story type, the dedication of the personal
block (empty string models an absent or empty value, both falsy), and the
page size preset name. -/
structure StoryConfig where
  children : List String
  storyType : String
  dedication : String
  pageSize : String
deriving DecidableEq

/-- Embedding of the cover title expression of createPDF: the template
literal children.join(join with ampersand)s Story tested for truthiness,
with the string Magical Story as the alternative. The template literal is
never empty, so the alternative is unreachable. -/
def titleText (children : List String) : String :=
  if String.intercalate " & " children ++ "\x27s Story" = "" then "Magical Story"
  else String.intercalate " & " children ++ "\x27s Story"

/-- Description of the cover page drawn by createPDF: page rectangle in
1e-10 point units, the title, the optional subtitle (drawn only when the
story type is truthy) and the optional dedication (drawn only when the
dedication is truthy). Placement coordinates and font sizes are fixed
functions of the rectangle and bleed flag in the source and are not
observed by any claim. -/
structure CoverDesc where
  widthU : Int
  heightU : Int
  title : String
  subtitle : Option String
  dedication : Option String

/-- Description of one story page drawn by createPDF: page rectangle, the
page number drawn near the bottom right corner, the wrapped text lines
(empty when the page text is falsy), and whether the image placeholder
region is drawn (print variant only). -/
structure StoryPageDesc where
  widthU : Int
  heightU : Int
  pageNumber : Nat
  textLines : List String
  imagePlaceholder : Bool

/-- One page of the produced document. -/
inductive PdfPage
  | cover (c : CoverDesc)
  | story (s : StoryPageDesc)

/-- Embedding of createPDF from the export edge function: resolve the page
size preset with fallback to A5 portrait, select the bleed or content
rectangle, emit the cover, then emit one story page per input page in
input order, wrapping the text of each page at 0.8 of the page width with
font size 16 for print and 14 for web. -/
def createPDF (font : Char → Int) (config : StoryConfig) (pages : List StoryPage)
    (includeBleed : Bool) : List PdfPage :=
  let pageSize := (PAGE_SIZES config.pageSize).getD a5PageSize
  let dims := if includeBleed then pageSize.withBleed else pageSize.content
  let pageWidth := mmToPdfPointsU dims.width
  let pageHeight := mmToPdfPointsU dims.height
  PdfPage.cover ⟨pageWidth, pageHeight, titleText config.children,
      (if config.storyType = "" then none else some ("A " ++ config.storyType)),
      (if config.dedication = "" then none else some config.dedication)⟩ ::
    pages.map (fun page =>
      PdfPage.story ⟨pageWidth, pageHeight, page.page,
        (if page.text = "" then []
         else wrapText font (if includeBleed then 16 else 14) (pageWidth * 8 / 10) page.text),
        includeBleed⟩)

/-- Page numbers of the non cover pages of a document, in document order. -/
def storyNums (doc : List PdfPage) : List Nat :=
  doc.filterMap (fun p => match p with
    | .story s => some s.pageNumber
    | .cover _ => none)

/-- Titles of the cover pages of a document, in document order. -/
def coverTitles (doc : List PdfPage) : List String :=
  doc.filterMap (fun p => match p with
    | .cover c => some c.title
    | .story _ => none)

/-- Joining a list of lines with single spaces, the reading of claim C9. -/
def joinWithSpaces (ls : List String) : String :=
  String.mk (List.intercalate [' '] (ls.map String.data))

/-- Payload of a decoded billing token: the optional expiry timestamp in
milliseconds, the item name, and the approval flag. -/
structure BillingTokenData where
  expires : Option Int
  item : String
  approved : Bool

/-- Embedding of verifyBillingToken of the export edge function, abstracted
over the base64 and JSON decoding step: a token that fails to decode is
invalid, a token whose expires field is truthy (present and nonzero) and
in the past is expired; both failures are collapsed to none because both
thrown errors lead to the same 402 response in the handler. -/
def verifyBillingToken (decode : String → Option BillingTokenData) (now : Int)
    (token : String) : Option BillingTokenData :=
  match decode token with
  | none => none
  | some d =>
    match d.expires with
    | some e => if e ≠ 0 ∧ now > e then none else some d
    | none => some d

/-- The billing authorization test of the request handler: the token must
verify, its item must be the string export, and it must be approved. -/
def tokenAuthorized (decode : String → Option BillingTokenData) (now : Int)
    (token : String) : Bool :=
  match verifyBillingToken decode now token with
  | none => false
  | some d => d.item == "export" && d.approved

/-- The parsed body of an export request. The includeBleed field receives
the destructuring default true when absent; the source reads it only in a
log line and always generates both variants. A body that fails to parse as
JSON, or whose pages field is absent so that reading pages.length throws,
is modelled as none. -/
structure ExportBody where
  config : StoryConfig
  pages : List StoryPage
  includeBleed : Bool

/-- An incoming request to the export edge function: the HTTP method, the
optional X-Billing-Token header, and the parse result of the body. -/
structure ExportRequest where
  method : String
  billingToken : Option String
  body : Option ExportBody

/-- Outcome of the export request handler, carrying the data of each return
path of the source: the CORS preflight ok response, the 402 payment
required response, the 500 error response, and the success response with
the web and print documents. -/
inductive HandlerResult
  | corsOk
  | paymentRequired
  | serverError
  | success (webPdf printPdf : List PdfPage)

/-- HTTP status of each handler outcome. -/
def statusOf : HandlerResult → Nat
  | .corsOk => 200
  | .paymentRequired => 402
  | .serverError => 500
  | .success _ _ => 200

/-- Whether an outcome carries generated PDFs. -/
def generatesPDF : HandlerResult → Bool
  | .success _ _ => true
  | _ => false

/-- Embedding of the serve callback of the export edge function: OPTIONS
requests are answered with a plain ok response before any other check; a
body that fails to parse leads to the catch all 500 response; a missing
billing token and a token that fails verification or authorization lead to
the 402 response; otherwise the web variant (no bleed) and the print
variant (bleed) are generated. -/
def handleExport (decode : String → Option BillingTokenData) (font : Char → Int)
    (now : Int) (req : ExportRequest) : HandlerResult :=
  if req.method = "OPTIONS" then .corsOk
  else
    match req.body with
    | none => .serverError
    | some body =>
      match req.billingToken with
      | none => .paymentRequired
      | some t =>
        if tokenAuthorized decode now t then
          .success (createPDF font body.config body.pages false)
            (createPDF font body.config body.pages true)
        else .paymentRequired

/-- Unit width font metric used for concrete evaluations. -/
def font1 : Char → Int := fun _ => 1

/-- A concrete configuration with one child on the A5 preset. -/
def cfg0 : StoryConfig := ⟨["Mia"], "adventure", "", "A5 portrait"⟩

/-- A concrete configuration with no child names. -/
def cfgNoChildren : StoryConfig := ⟨[], "", "", "A5 portrait"⟩

/-- A concrete configuration with an unrecognized page size name. -/
def cfgLetter : StoryConfig := ⟨["Mia"], "adventure", "", "letter"⟩

/-- Pages supplied in the order 3, 1, 2. -/
def pages312 : List StoryPage :=
  [⟨3, "page three text", none, false⟩,
   ⟨1, "page one text", none, false⟩,
   ⟨2, "page two text", none, false⟩]

/-- A page text of exactly 65 words. -/
def words65 : String := String.intercalate " " (List.replicate 65 "word")

/-- A page text of exactly 100 words. -/
def words100 : String := String.intercalate " " (List.replicate 100 "word")

/-- A 65 word page locked without an image. -/
def p65 : StoryPage := ⟨2, words65, none, true⟩

/-- A 100 word page locked without an image. -/
def p100 : StoryPage := ⟨1, words100, none, true⟩

/-- A decoder under which no token decodes. -/
def dec0 : String → Option BillingTokenData := fun _ => none

/-- A decoder under which exactly the token good decodes to an approved,
non expiring export token. -/
def dec1 : String → Option BillingTokenData :=
  fun t => if t = "good" then some ⟨none, "export", true⟩ else none

/-- A concrete parsed export body. -/
def body0 : ExportBody := ⟨cfg0, [], true⟩

/-- A CORS preflight request carrying no billing token. -/
def reqOptions : ExportRequest := ⟨"OPTIONS", none, none⟩

/-- A well formed export request carrying the token good. -/
def reqGood : ExportRequest := ⟨"POST", some "good", some body0⟩

set_option maxRecDepth 100000

theorem strMk_data (s : String) : String.mk s.data = s := rfl

theorem data_strMk (l : List Char) : (String.mk l).data = l := rfl

theorem wordRunsAux_eq_zero (l : List Char) (h : ∀ c ∈ l, isJsSpace c = true) :
    ∀ b, wordRunsAux b l = 0 := by
  induction l with
  | nil => intro b; rfl
  | cons c cs ih =>
    intro b
    have hc : isJsSpace c = true := h c (List.mem_cons_self _ _)
    simp only [wordRunsAux, hc, if_true]
    exact ih (fun x hx => h x (List.mem_cons_of_mem _ hx)) false

theorem countWords_aux (l : List Char) :
    ((l.splitOnP isJsSpace).filter (fun w => !w.isEmpty)).length = wordRunsAux false l ∧
    (((l.splitOnP isJsSpace).tail).filter (fun w => !w.isEmpty)).length = wordRunsAux true l := by
  induction l with
  | nil => simp [List.splitOnP_nil, wordRunsAux]
  | cons c l ih =>
    rw [List.splitOnP_cons]
    by_cases hc : isJsSpace c
    · simp only [hc, if_true]
      constructor
      · simpa [List.filter, wordRunsAux, hc] using ih.1
      · simpa [List.tail, wordRunsAux, hc] using ih.1
    · obtain ⟨hd, tl, hS⟩ : ∃ hd tl, l.splitOnP isJsSpace = hd :: tl := by
        cases h : l.splitOnP isJsSpace with
        | nil => exact absurd h (List.splitOnP_ne_nil _ l)
        | cons a b => exact ⟨a, b, rfl⟩
      have ih2 := ih.2
      rw [hS] at ih2
      simp only [List.tail_cons] at ih2
      rw [if_neg hc, hS]
      simp only [List.modifyHead]
      constructor
      · rw [List.filter_cons]
        simp only [List.isEmpty_cons, Bool.not_false, if_true, List.length_cons]
        rw [ih2]
        simp only [wordRunsAux]
        rw [if_neg hc]
        simp [Nat.add_comm]
      · simp only [List.tail_cons, wordRunsAux]
        rw [if_neg hc]
        simpa using ih2

theorem intercalate_single {α : Type} (x : α) (a : List α) :
    List.intercalate [x] [a] = a := by
  simp [List.intercalate]

theorem intercalate_cons_of_ne_nil {α : Type} (x : α) (a : List α) (L : List (List α))
    (h : L ≠ []) :
    List.intercalate [x] (a :: L) = a ++ x :: List.intercalate [x] L := by
  cases L with
  | nil => exact absurd rfl h
  | cons b L' =>
    simp [List.intercalate, List.intersperse_cons_cons]

theorem intercalate_merge {α : Type} (x : α) (xs : List (List α)) (a b : List α)
    (ys : List (List α)) :
    List.intercalate [x] (xs ++ (a ++ x :: b) :: ys) =
    List.intercalate [x] (xs ++ a :: b :: ys) := by
  induction xs with
  | nil =>
    cases ys with
    | nil =>
      rw [List.nil_append, List.nil_append, intercalate_single,
        intercalate_cons_of_ne_nil x a [b] (by simp), intercalate_single]
    | cons c ys' =>
      rw [List.nil_append, List.nil_append,
        intercalate_cons_of_ne_nil x _ (c :: ys') (by simp),
        intercalate_cons_of_ne_nil x a (b :: c :: ys') (by simp),
        intercalate_cons_of_ne_nil x b (c :: ys') (by simp)]
      simp [List.append_assoc]
  | cons d xs' ih =>
    rw [List.cons_append, List.cons_append,
      intercalate_cons_of_ne_nil x d _ (by simp),
      intercalate_cons_of_ne_nil x d _ (by simp), ih]


theorem lineWidth_nil (font : Char → Int) (fs : Int) : lineWidth font fs [] = 0 := by
  simp [lineWidth]

theorem wrapWords_sound (font : Char → Int) (fs m : Int) (hm : 0 ≤ m)
    (W : List (List Char)) :
    ∀ (ws : List (List Char)) (cur : List Char) (lines : List (List Char)),
      (∀ l ∈ lines, lineWidth font fs l ≤ m ∨ l ∈ W) →
      (lineWidth font fs cur ≤ m ∨ cur ∈ W) →
      (∀ w ∈ ws, w ∈ W) →
      ∀ l ∈ wrapWords font fs m ws cur lines, lineWidth font fs l ≤ m ∨ l ∈ W := by
  intro ws
  induction ws with
  | nil =>
    intro cur lines hlines hcur _ l hl
    by_cases h : cur = []
    · rw [wrapWords, if_pos h] at hl
      exact hlines l hl
    · rw [wrapWords, if_neg h] at hl
      rcases List.mem_append.1 hl with hl | hl
      · exact hlines l hl
      · rw [List.mem_singleton] at hl
        subst hl
        exact hcur
  | cons w ws ih =>
    intro cur lines hlines hcur hws l hl
    rw [wrapWords] at hl
    by_cases hfit :
        lineWidth font fs (cur ++ (if cur = [] then [] else [' ']) ++ w) ≤ m
    · rw [if_pos hfit] at hl
      exact ih _ _ hlines (Or.inl hfit)
        (fun x hx => hws x (List.mem_cons_of_mem _ hx)) l hl
    · rw [if_neg hfit] at hl
      by_cases hc : cur = []
      · rw [if_pos hc] at hl
        refine ih _ _ ?_ (Or.inl (by simpa [lineWidth_nil] using hm))
          (fun x hx => hws x (List.mem_cons_of_mem _ hx)) l hl
        intro x hx
        rcases List.mem_append.1 hx with hx | hx
        · exact hlines x hx
        · rw [List.mem_singleton] at hx
          subst hx
          exact Or.inr (hws _ (List.mem_cons_self _ _))
      · rw [if_neg hc] at hl
        refine ih _ _ ?_ (Or.inr (hws _ (List.mem_cons_self _ _)))
          (fun x hx => hws x (List.mem_cons_of_mem _ hx)) l hl
        intro x hx
        rcases List.mem_append.1 hx with hx | hx
        · exact hlines x hx
        · rw [List.mem_singleton] at hx
          subst hx
          exact hcur

theorem wrapWords_no_empty (font : Char → Int) (fs m : Int) (hm : 0 ≤ m) :
    ∀ (ws : List (List Char)) (cur : List Char) (lines : List (List Char)),
      (∀ l ∈ lines, l ≠ []) →
      ∀ l ∈ wrapWords font fs m ws cur lines, l ≠ [] := by
  intro ws
  induction ws with
  | nil =>
    intro cur lines hlines l hl
    by_cases h : cur = []
    · rw [wrapWords, if_pos h] at hl
      exact hlines l hl
    · rw [wrapWords, if_neg h] at hl
      rcases List.mem_append.1 hl with hl | hl
      · exact hlines l hl
      · rw [List.mem_singleton] at hl
        subst hl
        exact h
  | cons w ws ih =>
    intro cur lines hlines l hl
    rw [wrapWords] at hl
    by_cases hfit :
        lineWidth font fs (cur ++ (if cur = [] then [] else [' ']) ++ w) ≤ m
    · rw [if_pos hfit] at hl
      exact ih _ _ hlines l hl
    · rw [if_neg hfit] at hl
      by_cases hc : cur = []
      · rw [if_pos hc] at hl
        refine ih _ _ ?_ l hl
        intro x hx
        rcases List.mem_append.1 hx with hx | hx
        · exact hlines x hx
        · rw [List.mem_singleton] at hx
          subst hx
          intro hxnil
          subst hxnil
          rw [hc] at hfit
          simp [lineWidth_nil] at hfit
          omega
      · rw [if_neg hc] at hl
        refine ih _ _ ?_ l hl
        intro x hx
        rcases List.mem_append.1 hx with hx | hx
        · exact hlines x hx
        · rw [List.mem_singleton] at hx
          subst hx
          exact hc

theorem wrapWords_length (font : Char → Int) (fs m : Int) :
    ∀ (ws : List (List Char)) (cur : List Char) (lines : List (List Char)),
      (wrapWords font fs m ws cur lines).length ≤
        lines.length + (if cur = [] then 0 else 1) + ws.length := by
  intro ws
  induction ws with
  | nil =>
    intro cur lines
    by_cases h : cur = [] <;> simp [wrapWords, h]
  | cons w ws ih =>
    intro cur lines
    rw [wrapWords]
    split_ifs with h1 h2 h3
    · have h4 := ih (cur ++ [] ++ w) lines
      have h5 : (if cur ++ [] ++ w = [] then 0 else 1) ≤ 1 := by split <;> omega
      simp only [List.length_cons]
      omega
    · have h4 := ih [] (lines ++ [w])
      have h5 : (if ([] : List Char) = [] then 0 else 1) = 0 := by simp
      rw [h5] at h4
      simp only [List.length_append, List.length_singleton] at h4
      simp only [List.length_cons]
      omega
    · have h4 := ih (cur ++ [' '] ++ w) lines
      have h5 : (if cur ++ [' '] ++ w = [] then 0 else 1) ≤ 1 := by split <;> omega
      simp only [List.length_cons]
      omega
    · have h4 := ih w (lines ++ [cur])
      have h5 : (if w = [] then 0 else 1) ≤ 1 := by split <;> omega
      simp only [List.length_append, List.length_singleton] at h4
      simp only [List.length_cons]
      omega

theorem wrapWords_glue (font : Char → Int) (fs m : Int) :
    ∀ (ws : List (List Char)), (∀ w ∈ ws, w ≠ []) →
      ∀ (cur : List Char) (lines : List (List Char)),
      List.intercalate [' '] (wrapWords font fs m ws cur lines) =
      List.intercalate [' '] (lines ++ (if cur = [] then [] else [cur]) ++ ws) := by
  intro ws
  induction ws with
  | nil =>
    intro _ cur lines
    by_cases hc : cur = [] <;> simp [wrapWords, hc]
  | cons w ws ih =>
    intro hws cur lines
    have hw : w ≠ [] := hws w (List.mem_cons_self _ _)
    have hws' : ∀ x ∈ ws, x ≠ [] := fun x hx => hws x (List.mem_cons_of_mem _ hx)
    rw [wrapWords]
    split_ifs with h1 h2 h3
    · rw [show cur ++ [] ++ w = w from by simp [h1], ih hws' w lines, if_neg hw]
      simp
    · rw [ih hws' [] (lines ++ [w]), if_pos rfl]
      simp
    · rw [ih hws' (cur ++ [' '] ++ w) lines, if_neg (by simp)]
      have hmerge := intercalate_merge ' ' lines cur w ws
      simp only [List.append_assoc, List.singleton_append, List.cons_append,
        List.nil_append] at hmerge ⊢
      rw [hmerge]
    · rw [ih hws' w (lines ++ [cur]), if_neg hw]
      simp

theorem getWordCountStatus_eq_good_iff (wc : Nat) (level : ReadingLevel) :
    getWordCountStatus wc level = .good ↔
    (wordCountTargets level).min ≤ wc ∧ wc ≤ (wordCountTargets level).max := by
  unfold getWordCountStatus
  split_ifs with h1 h2
  · exact iff_of_false (by simp) (by omega)
  · exact iff_of_false (by simp) (by omega)
  · exact iff_of_true rfl (by omega)

/-- Claim C3: for every preset in the page size table, the withBleed
rectangle equals the content rectangle plus twice the 3 mm bleed constant
in each dimension, and the table holds exactly the three documented
entries: A5 portrait 148x210 and 154x216, A4 portrait 210x297 and 216x303,
square 210x210 and 216x216. -/
theorem PAGE_SIZES_bleed_table :
    PAGE_SIZES "A5 portrait" = some a5PageSize ∧
    PAGE_SIZES "A4 portrait" = some a4PageSize ∧
    PAGE_SIZES "210×210 mm square" = some squarePageSize ∧
    a5PageSize = ⟨⟨148, 210⟩, ⟨154, 216⟩⟩ ∧
    a4PageSize = ⟨⟨210, 297⟩, ⟨216, 303⟩⟩ ∧
    squarePageSize = ⟨⟨210, 210⟩, ⟨216, 216⟩⟩ ∧
    (∀ e ∈ [a5PageSize, a4PageSize, squarePageSize],
      e.withBleed.width = e.content.width + 2 * BLEED_MM ∧
      e.withBleed.height = e.content.height + 2 * BLEED_MM) ∧
    (∀ k e, PAGE_SIZES k = some e → e ∈ [a5PageSize, a4PageSize, squarePageSize]) := by
  refine ⟨by decide, by decide, by decide, rfl, rfl, rfl, by decide, ?_⟩
  intro k e h
  unfold PAGE_SIZES at h
  split_ifs at h <;> simp_all

/-- Witness for claim C3 at the A5 entry. -/
theorem PAGE_SIZES_bleed_table_witness :
    a5PageSize.withBleed.width = a5PageSize.content.width + 2 * BLEED_MM :=
  (PAGE_SIZES_bleed_table.2.2.2.2.2.2.1 a5PageSize (by decide)).1

/-- Claim C5: countWords trims leading and trailing whitespace, returns 0
for empty or whitespace only input, and otherwise returns the number of
tokens obtained by splitting on runs of whitespace, so consecutive spaces
collapse; equivalently it agrees everywhere with the run counting
specification countWordsSpec. -/
theorem countWords_trims_and_collapses :
    (∀ s : String, countWords s = countWordsSpec s) ∧
    countWords "" = 0 ∧ countWords "   " = 0 ∧ countWords "one two  three" = 3 ∧
    (∀ s : String, (∀ c ∈ s.data, isJsSpace c = true) → countWords s = 0) := by
  refine ⟨?_, by decide, by decide, by decide, ?_⟩
  · intro s
    exact (countWords_aux s.data).1
  · intro s h
    exact ((countWords_aux s.data).1).trans (wordRunsAux_eq_zero s.data h false)

/-- Witness for claim C5 on whitespace only input. -/
theorem countWords_trims_and_collapses_witness : countWords "\t\n " = 0 :=
  countWords_trims_and_collapses.2.2.2.2 "\t\n " (by decide)

/-- Claim C6 (code bug evidence): with an empty children list the cover
title expression produces the bare possessive suffix string rather than
the generic fallback title Magical Story, because the template literal is
never empty and so the intended alternative is unreachable. -/
theorem cover_title_with_no_children :
    titleText [] = "\x27s Story" ∧
    titleText [] ≠ "Magical Story" ∧
    coverTitles (createPDF font1 cfgNoChildren [] true) = ["\x27s Story"] :=
  ⟨by decide, by decide, by decide⟩

/-- Claim C7: a page size key not in the preset table does not fail; the
document is built exactly as it would be for the A5 portrait default. -/
theorem unknown_preset_falls_back_to_A5 (font : Char → Int) (config : StoryConfig)
    (pages : List StoryPage) (b : Bool) (h : PAGE_SIZES config.pageSize = none) :
    createPDF font config pages b =
      createPDF font ⟨config.children, config.storyType, config.dedication, "A5 portrait"⟩
        pages b := by
  unfold createPDF
  rw [h]
  rfl

/-- Witness for claim C7 at the unrecognized key letter. -/
theorem unknown_preset_falls_back_to_A5_witness :
    createPDF font1 cfgLetter [] true =
      createPDF font1
        ⟨cfgLetter.children, cfgLetter.storyType, cfgLetter.dedication, "A5 portrait"⟩
        [] true :=
  unknown_preset_falls_back_to_A5 font1 cfgLetter [] true (by decide)

/-- Claim C8: for an empty page list and any configuration and bleed flag
the layout engine still produces a valid one page cover only artifact,
neither an error nor an empty artifact. -/
theorem createPDF_zero_pages_cover_only (font : Char → Int) (config : StoryConfig)
    (b : Bool) :
    (createPDF font config [] b).length = 1 ∧
    (∀ p ∈ createPDF font config [] b, ∃ c, p = PdfPage.cover c) ∧
    createPDF font config [] b ≠ [] := by
  refine ⟨by simp [createPDF], ?_, by simp [createPDF]⟩
  intro p hp
  simp only [createPDF, List.map_nil, List.mem_singleton] at hp
  exact ⟨_, hp⟩

/-- Witness for claim C8 at a concrete configuration. -/
theorem createPDF_zero_pages_cover_only_witness :
    (createPDF font1 cfg0 [] true).length = 1 ∧ createPDF font1 cfg0 [] true ≠ [] :=
  ⟨(createPDF_zero_pages_cover_only font1 cfg0 true).1,
   (createPDF_zero_pages_cover_only font1 cfg0 true).2.2⟩

/-- Claim C1 counterexample: pages supplied in the order 3, 1, 2 are
rendered in the order 3, 1, 2, not in ascending page number order; the
layout engine performs no sort. -/
theorem createPDF_input_order_3_1_2 :
    storyNums (createPDF font1 cfg0 pages312 true) = [3, 1, 2] ∧
    storyNums (createPDF font1 cfg0 pages312 true) ≠ [1, 2, 3] :=
  ⟨by decide, by decide⟩

/-- Claim C1 amended: for every configuration, font metric, page list and
bleed flag, the built document is one cover followed by one story page per
input page, with the story pages carrying the input page numbers in input
order (no reordering). -/
theorem createPDF_cover_then_input_order (font : Char → Int) (config : StoryConfig)
    (pages : List StoryPage) (b : Bool) :
    (createPDF font config pages b).length = pages.length + 1 ∧
    (∃ c, (createPDF font config pages b).head? = some (PdfPage.cover c)) ∧
    storyNums (createPDF font config pages b) = pages.map (fun p => p.page) := by
  refine ⟨by simp [createPDF], ⟨_, rfl⟩, ?_⟩
  simp only [createPDF, storyNums, List.filterMap_cons, List.filterMap_map,
    Function.comp]
  exact List.filterMap_eq_map _ ▸ rfl

/-- Claim C2 counterexample: a 65 word page at the 80 to 120 level lies
inside the claimed tolerance band (65 is at least 80 minus 15) and
displays as low, yet the export gate marks it warning and export is not
permitted, so the claimed tolerance acceptance does not hold. -/
theorem page_with_65_words_not_accepted :
    countWords words65 = 65 ∧
    (wordCountTargets ReadingLevel.early45).min - 15 ≤ 65 ∧
    getWordCountStatus 65 ReadingLevel.early45 = WordStatus.low ∧
    (getPageStatus ReadingLevel.early45 p65).overall = false ∧
    canExport ReadingLevel.early45 [p65] = false :=
  ⟨by decide, by decide, by decide, by decide, by decide⟩

/-- Claim C2 amended: export acceptance applies no tolerance; a page
clears the export gate exactly when its word count lies in the display
band from min to max and it has an image or is locked without one, and a
document may be exported exactly when every page clears the gate. -/
theorem export_gate_requires_display_good (level : ReadingLevel) (page : StoryPage)
    (pages : List StoryPage) :
    ((getPageStatus level page).overall = true ↔
      ((wordCountTargets level).min ≤ countWords page.text ∧
       countWords page.text ≤ (wordCountTargets level).max ∧ hasImage page = true)) ∧
    (canExport level pages = true ↔ ∀ p ∈ pages, (getPageStatus level p).overall = true) := by
  constructor
  · unfold getPageStatus
    simp only [Bool.and_eq_true, decide_eq_true_eq]
    rw [getWordCountStatus_eq_good_iff]
    tauto
  · unfold canExport
    rw [List.all_eq_true]

/-- Witness for the amended claim C2: a 100 word locked page at the 80 to
120 level clears the gate. -/
theorem export_gate_requires_display_good_witness :
    (getPageStatus ReadingLevel.early45 p100).overall = true :=
  (export_gate_requires_display_good ReadingLevel.early45 p100 []).1.mpr
    ⟨by decide, by decide, by decide⟩

/-- Claim C4 counterexample: wrapText splits on the space character only,
not on whitespace; on the tab separated input the source keeps the tab
inside one atomic chunk while the wrapping prescribed by the claim splits
at the tab and joins with a space, and the two outputs differ. -/
theorem wrapText_tab_counterexample :
    wrapText font1 1 3 "a\tb" = ["a\tb"] ∧
    wrapTextWhitespaceClaim font1 1 3 "a\tb" = ["a b"] ∧
    ("a\tb" : String) ≠ "a b" :=
  ⟨by decide, by decide, by decide⟩

/-- Claim C4 amended: for every font metric, font size, nonnegative
maxWidth and input text, wrapText splits the text on the space character
into atomic chunks and wraps greedily; it always terminates with a finite
line list of at most one line per chunk, no line is empty (in particular
no trailing empty line), and every line either fits within maxWidth or is
a single atomic chunk placed alone on its own line (the case of a chunk
wider than maxWidth, which neither loops nor throws). -/
theorem wrapText_greedy_lines (font : Char → Int) (fs m : Int) (text : String)
    (hm : 0 ≤ m) :
    (∀ l ∈ wrapText font fs m text, l ≠ "" ∧
      (lineWidth font fs l.data ≤ m ∨ l.data ∈ text.data.splitOn ' ')) ∧
    (wrapText font fs m text).length ≤ (text.data.splitOn ' ').length := by
  constructor
  · intro l hl
    unfold wrapText at hl
    rcases List.mem_map.1 hl with ⟨lc, hlc, rfl⟩
    constructor
    · have h1 : lc ≠ [] :=
        wrapWords_no_empty font fs m hm (text.data.splitOn ' ') [] [] (by simp) lc hlc
      intro hcon
      exact h1 (congrArg String.data hcon)
    · exact wrapWords_sound font fs m hm (text.data.splitOn ' ')
        (text.data.splitOn ' ') [] [] (by simp)
        (Or.inl (by rw [lineWidth_nil]; exact hm)) (fun w hw => hw) lc hlc
  · unfold wrapText
    rw [List.length_map]
    have h3 := wrapWords_length font fs m (text.data.splitOn ' ') [] []
    simpa using h3

/-- Witness for the amended claim C4 on the two word per line example. -/
theorem wrapText_greedy_lines_witness :
    ("alpha beta" ≠ "" ∧
      (lineWidth font1 1 "alpha beta".data ≤ 11 ∨
        "alpha beta".data ∈ "alpha beta gamma delta".data.splitOn ' ')) ∧
    (wrapText font1 1 11 "alpha beta gamma delta").length ≤
      ("alpha beta gamma delta".data.splitOn ' ').length :=
  ⟨(wrapText_greedy_lines font1 1 11 "alpha beta gamma delta" (by decide)).1
      "alpha beta" (by decide),
   (wrapText_greedy_lines font1 1 11 "alpha beta gamma delta" (by decide)).2⟩

/-- Claim C9: for input whose chunks between single spaces are all
nonempty (no leading, trailing or doubled spaces), joining the lines
returned by wrapText with single spaces reproduces the input text exactly,
for every font metric, font size and maxWidth. -/
theorem wrapText_join_roundtrip (font : Char → Int) (fs m : Int) (text : String)
    (h : ∀ w ∈ text.data.splitOn ' ', w ≠ []) :
    joinWithSpaces (wrapText font fs m text) = text := by
  unfold joinWithSpaces wrapText
  rw [List.map_map]
  have h1 : (String.data ∘ String.mk) = id := rfl
  rw [h1, List.map_id]
  rw [wrapWords_glue font fs m (text.data.splitOn ' ') h [] []]
  rw [if_pos rfl]
  simp only [List.nil_append]
  rw [List.intercalate_splitOn]

/-- Witness for claim C9 on a four word input. -/
theorem wrapText_join_roundtrip_witness :
    joinWithSpaces (wrapText font1 1 11 "alpha beta gamma delta") =
      "alpha beta gamma delta" :=
  wrapText_join_roundtrip font1 1 11 "alpha beta gamma delta" (by decide)

/-- Claim C10 counterexample: a CORS preflight OPTIONS request carries no
billing token yet is answered with status 200, not 402, so not every
request lacking a valid token receives a 402 response. -/
theorem options_request_without_token_not_402 :
    statusOf (handleExport dec0 font1 0 reqOptions) = 200 ∧
    generatesPDF (handleExport dec0 font1 0 reqOptions) = false ∧
    statusOf (handleExport dec0 font1 0 reqOptions) ≠ 402 :=
  ⟨by decide, by decide, by decide⟩

/-- Claim C10 amended: PDFs are generated exactly for non OPTIONS requests
with a parseable body whose X-Billing-Token decodes to an approved export
token that is not expired; every non OPTIONS request with a parseable body
and no such token receives the 402 response and no PDF, and a token is
authorized exactly when it decodes to an unexpired (or expiry free, or
zero expiry) approved token for the item export. -/
theorem handleExport_billing_gate (decode : String → Option BillingTokenData)
    (font : Char → Int) (now : Int) (req : ExportRequest) :
    (generatesPDF (handleExport decode font now req) = true →
      req.method ≠ "OPTIONS" ∧ (∃ b, req.body = some b) ∧
      ∃ t, req.billingToken = some t ∧ tokenAuthorized decode now t = true) ∧
    (req.method ≠ "OPTIONS" → (∃ b, req.body = some b) →
      (∀ t, req.billingToken = some t → tokenAuthorized decode now t = false) →
      handleExport decode font now req = HandlerResult.paymentRequired ∧
      statusOf (handleExport decode font now req) = 402) ∧
    (req.method ≠ "OPTIONS" → (∃ b, req.body = some b) →
      (∃ t, req.billingToken = some t ∧ tokenAuthorized decode now t = true) →
      ∃ w p, handleExport decode font now req = HandlerResult.success w p) ∧
    (∀ t, tokenAuthorized decode now t = true ↔
      ∃ d, decode t = some d ∧ d.item = "export" ∧ d.approved = true ∧
        (∀ e, d.expires = some e → e = 0 ∨ now ≤ e)) := by
  refine ⟨?_, ?_, ?_, ?_⟩
  · intro hgen
    by_cases hmeth : req.method = "OPTIONS"
    · have hx : handleExport decode font now req = HandlerResult.corsOk := by
        unfold handleExport
        rw [if_pos hmeth]
      rw [hx] at hgen
      simp [generatesPDF] at hgen
    · cases hbody : req.body with
      | none =>
        have hx : handleExport decode font now req = HandlerResult.serverError := by
          unfold handleExport
          rw [if_neg hmeth, hbody]
        rw [hx] at hgen
        simp [generatesPDF] at hgen
      | some b =>
        cases htok : req.billingToken with
        | none =>
          have hx : handleExport decode font now req = HandlerResult.paymentRequired := by
            unfold handleExport
            rw [if_neg hmeth, hbody, htok]
          rw [hx] at hgen
          simp [generatesPDF] at hgen
        | some t =>
          have hx : handleExport decode font now req =
              (if tokenAuthorized decode now t then
                HandlerResult.success (createPDF font b.config b.pages false)
                  (createPDF font b.config b.pages true)
              else HandlerResult.paymentRequired) := by
            unfold handleExport
            rw [if_neg hmeth, hbody, htok]
          rw [hx] at hgen
          by_cases hauth : tokenAuthorized decode now t = true
          · exact ⟨hmeth, ⟨b, rfl⟩, t, rfl, hauth⟩
          · rw [if_neg hauth] at hgen
            simp [generatesPDF] at hgen
  · intro hmeth hb hnone
    obtain ⟨b, hbody⟩ := hb
    cases htok : req.billingToken with
    | none =>
      have hx : handleExport decode font now req = HandlerResult.paymentRequired := by
        unfold handleExport
        rw [if_neg hmeth, hbody, htok]
      rw [hx]
      exact ⟨rfl, rfl⟩
    | some t =>
      have hf : tokenAuthorized decode now t = false := hnone t htok
      have hx : handleExport decode font now req =
          (if tokenAuthorized decode now t then
            HandlerResult.success (createPDF font b.config b.pages false)
              (createPDF font b.config b.pages true)
          else HandlerResult.paymentRequired) := by
        unfold handleExport
        rw [if_neg hmeth, hbody, htok]
      rw [hx, if_neg (by simp [hf])]
      exact ⟨rfl, rfl⟩
  · intro hmeth hb hsome
    obtain ⟨b, hbody⟩ := hb
    obtain ⟨t, htok, hauth⟩ := hsome
    have hx : handleExport decode font now req =
        (if tokenAuthorized decode now t then
          HandlerResult.success (createPDF font b.config b.pages false)
            (createPDF font b.config b.pages true)
        else HandlerResult.paymentRequired) := by
      unfold handleExport
      rw [if_neg hmeth, hbody, htok]
    rw [hx, if_pos hauth]
    exact ⟨_, _, rfl⟩
  · intro t
    cases hd : decode t with
    | none =>
      have hy : verifyBillingToken decode now t = none := by
        unfold verifyBillingToken
        rw [hd]
      have hx : tokenAuthorized decode now t = false := by
        unfold tokenAuthorized
        rw [hy]
      rw [hx]
      simp [hd]
    | some d =>
      cases he : d.expires with
      | none =>
        have hy : verifyBillingToken decode now t = some d := by
          simp only [verifyBillingToken, hd, he]
        have hx : tokenAuthorized decode now t = (d.item == "export" && d.approved) := by
          unfold tokenAuthorized
          rw [hy]
        rw [hx]
        simp only [Bool.and_eq_true, beq_iff_eq, hd, Option.some.injEq]
        constructor
        · rintro ⟨hitem, happ⟩
          exact ⟨d, rfl, hitem, happ, by intro e hee; rw [he] at hee; cases hee⟩
        · rintro ⟨d', hd', hitem, happ, -⟩
          obtain rfl : d' = d := hd'.symm
          exact ⟨hitem, happ⟩
      | some e =>
        have hy : verifyBillingToken decode now t =
            (if e ≠ 0 ∧ now > e then none else some d) := by
          simp only [verifyBillingToken, hd, he]
        by_cases hexp : e ≠ 0 ∧ now > e
        · have hx : tokenAuthorized decode now t = false := by
            unfold tokenAuthorized
            rw [hy, if_pos hexp]
          rw [hx]
          refine iff_of_false (by simp) ?_
          rintro ⟨d', hd', hitem, happ, hexp'⟩
          obtain rfl : d' = d := (Option.some.inj hd').symm
          have h3 := hexp' e he
          omega
        · have hx : tokenAuthorized decode now t = (d.item == "export" && d.approved) := by
            unfold tokenAuthorized
            rw [hy, if_neg hexp]
          rw [hx]
          simp only [Bool.and_eq_true, beq_iff_eq, hd, Option.some.injEq]
          constructor
          · rintro ⟨hitem, happ⟩
            refine ⟨d, rfl, hitem, happ, ?_⟩
            intro e' hee
            rw [he] at hee
            obtain rfl : e' = e := (Option.some.inj hee).symm
            omega
          · rintro ⟨d', hd', hitem, happ, -⟩
            obtain rfl : d' = d := hd'.symm
            exact ⟨hitem, happ⟩

/-- Witness for the amended claim C10: a POST request with a parseable
body and a decodable approved export token is answered with success. -/
theorem handleExport_billing_gate_witness :
    ∃ w p, handleExport dec1 font1 0 reqGood = HandlerResult.success w p :=
  (handleExport_billing_gate dec1 font1 0 reqGood).2.2.1 (by decide)
    ⟨body0, rfl⟩ ⟨"good", rfl, by decide⟩
